import Mathlib

/-!
Verification of the DaVinci Micro Color Panel controller.

This file gives a shallow embedding of the input-processing and device-session
layer of the controller (`blender_addon/device_control.py`,
`blender_addon/__init__.py`, and the `MicroPanel` variant in
`src/core/device.py`) and proves properties of the decoding, smoothing,
illumination and session-lifecycle logic.

Floating-point arithmetic of the source is embedded over `ℚ` with the decimal
literals read as exact rationals (0.25 = 1/4, 0.8 = 4/5, 0.3 = 3/10,
0.05 = 1/20); the branch structure of the source is preserved exactly.
-/

namespace MicroPanel

/-- Embedding of `signed_byte` in `InputProcessor._process_trackball_data`:
convert an unsigned byte to a signed value (`value if value < 128 else
value - 256`). -/
def signed_byte (v : ℕ) : ℤ :=
  if v < 128 then (v : ℤ) else (v : ℤ) - 256

/-- Embedding of `InputProcessor.history_size` (fixed smoothing capacity 4). -/
def history_size : ℕ := 4

/-- Embedding of the history update in `_process_trackball_data`:
`history.append(x)` followed by `if len(history) > history_size:
history.pop(0)`. -/
def pushSample (h : List ℤ) (x : ℤ) : List ℤ :=
  let h2 := h ++ [x]
  if history_size < h2.length then h2.tail else h2

/-- Embedding of the inner `weighted_average` of `_process_trackball_data`:
weights `1..N` oldest-to-newest, weighted sum divided by the weight total
(`0` for an empty history). -/
def weighted_average (h : List ℤ) : ℚ :=
  if h = [] then 0
  else
    let weights : List ℚ := (List.range h.length).map (fun i => (i : ℚ) + 1)
    let weighted_sum := (((h.map (fun z => (z : ℚ))).zip weights).map
      (fun p => p.1 * p.2)).sum
    let weight_total := weights.sum
    if 0 < weight_total then weighted_sum / weight_total else 0

/-- Embedding of the X-source disambiguation in `_process_trackball_data`
(lines 258-268): `x_movement = byte2 if |byte2| > |byte6| else (byte6 if
|byte6| > 0 else 0)`, with the bytes read at offsets 2 and 6 (0 when the
report is too short). -/
def xMovement (data : List ℕ) : ℤ :=
  let byte2_raw := signed_byte (data.getD 2 0)
  let byte6_raw := signed_byte (data.getD 6 0)
  if |byte6_raw| < |byte2_raw| then byte2_raw
  else if 0 < |byte6_raw| then byte6_raw
  else 0

/-- Embedding of the Y movement in `_process_trackball_data` (line 271):
byte 7 used only when its magnitude exceeds 1. -/
def yMovement (data : List ℕ) : ℤ :=
  let byte7_raw := signed_byte (data.getD 7 0)
  if 1 < |byte7_raw| then byte7_raw else 0

/-- Inversion followed by the sensitivity multiplication, as applied to every
axis in `_process_trackball_data` (lines 313-325). -/
def applyInvSens (q : ℚ) (inv : Bool) (sens : ℚ) : ℚ :=
  (if inv then -q else q) * sens

/-- Smoothed X value: the weighted average of the X history after the current
report's movement has been appended. -/
def smooth_x (xh : List ℤ) (data : List ℕ) : ℚ :=
  weighted_average (pushSample xh (xMovement data))

/-- Smoothed Y value: the weighted average of the Y history after the current
report's movement has been appended. -/
def smooth_y (yh : List ℤ) (data : List ℕ) : ℚ :=
  weighted_average (pushSample yh (yMovement data))

/-- Left-trackball X delta: smoothed X scaled by 0.25, then inversion and
sensitivity. -/
def left_x_delta (xh : List ℤ) (data : List ℕ) (sens : ℚ) (ix : Bool) : ℚ :=
  applyInvSens (smooth_x xh data * (1 / 4)) ix sens

/-- Left-trackball Y delta: smoothed Y scaled by 0.8, then inversion and
sensitivity. -/
def left_y_delta (yh : List ℤ) (data : List ℕ) (sens : ℚ) (iy : Bool) : ℚ :=
  applyInvSens (smooth_y yh data * (4 / 5)) iy sens

/-- Wheel delta (byte 10): signed byte scaled by 0.3 when the raw byte is
nonzero, then sensitivity (no inversion applies to the wheel). -/
def wheel_delta (data : List ℕ) (sens : ℚ) : ℚ :=
  (if data.getD 10 0 ≠ 0 then (signed_byte (data.getD 10 0) : ℚ) * (3 / 10) else 0) * sens

/-- Center-trackball X delta (byte 14, guarded by `len(data) > 15`): signed
byte scaled by 0.3, then inversion and sensitivity. -/
def center_x_delta (data : List ℕ) (sens : ℚ) (ix : Bool) : ℚ :=
  applyInvSens (if 15 < data.length then (signed_byte (data.getD 14 0) : ℚ) * (3 / 10) else 0) ix sens

/-- Center-trackball Y delta (byte 15, guarded by `len(data) > 15`): signed
byte scaled by 0.3, then inversion and sensitivity. -/
def center_y_delta (data : List ℕ) (sens : ℚ) (iy : Bool) : ℚ :=
  applyInvSens (if 15 < data.length then (signed_byte (data.getD 15 0) : ℚ) * (3 / 10) else 0) iy sens

/-- Embedding of `movement_threshold = 0.05`. -/
def movement_threshold : ℚ := 1 / 20

/-- The trackball event dictionary built by `_process_trackball_data`: each of
the three groups (`left_trackball`, `center_trackball`, `wheel`) is present
exactly when its `has_*_movement` flag held. -/
structure TrackballEvent where
  left : Option (ℚ × ℚ)
  center : Option (ℚ × ℚ)
  wheel : Option ℚ
deriving DecidableEq

/-- Embedding of `InputProcessor._process_trackball_data`: pushes the X/Y
movements into the smoothing histories, computes the scaled deltas, and
returns the updated histories together with the emitted event (`none` models
the empty dictionary returned when no group passed the threshold). -/
def processTrackball (xh yh : List ℤ) (data : List ℕ) (sens : ℚ) (ix iy : Bool) :
    (List ℤ × List ℤ) × Option TrackballEvent :=
  let lx := left_x_delta xh data sens ix
  let ly := left_y_delta yh data sens iy
  let cx := center_x_delta data sens ix
  let cy := center_y_delta data sens iy
  let wd := wheel_delta data sens
  let newHist := (pushSample xh (xMovement data), pushSample yh (yMovement data))
  if (movement_threshold < |lx| ∨ movement_threshold < |ly|) ∨
     (movement_threshold < |cx| ∨ movement_threshold < |cy|) ∨
     movement_threshold < |wd| then
    (newHist,
      some { left := if movement_threshold < |lx| ∨ movement_threshold < |ly| then
               some (lx, ly) else none,
             center := if movement_threshold < |cx| ∨ movement_threshold < |cy| then
               some (cx, cy) else none,
             wheel := if movement_threshold < |wd| then some wd else none })
  else (newHist, none)

/-- Button IDs contributed by one report byte in
`InputProcessor._process_button_data`: each set bit `bit` of the byte at
index `byteIdx` yields button ID `(byteIdx - 1) * 8 + bit + 8`. -/
def buttonBitsOfByte (byteIdx : ℕ) (b : ℕ) : List ℕ :=
  (List.range 8).filterMap
    (fun bit => if b.testBit bit then some ((byteIdx - 1) * 8 + bit + 8) else none)

/-- Embedding of `InputProcessor._process_button_data`: reports shorter than
8 bytes yield nothing; otherwise every set bit of bytes 1..7 of the current
report yields a pressed button ID (no comparison with any previous state). -/
def processButtonData (data : List ℕ) : List ℕ :=
  if data.length < 8 then []
  else ((List.range 7).map (fun k => buttonBitsOfByte (k + 1) (data.getD (k + 1) 0))).flatten

/-- The mutable state of `InputProcessor` relevant to decoding: the two
per-axis smoothing histories. -/
structure ProcState where
  x_history : List ℤ
  y_history : List ℤ
deriving DecidableEq

/-- The structured result dictionary of
`InputProcessor.process_input_data`. -/
structure ProcessResult where
  report_id : ℕ
  processed : Bool
  trackball : Option TrackballEvent
  buttons : List ℕ
  encoderRaw : Option (List ℕ)
deriving DecidableEq

/-- Embedding of `InputProcessor.process_input_data`: dispatch on the report
ID (byte 0) to the trackball (0x05), button (0x02) or encoder (0x06)
sub-decoder; other IDs leave `processed` false; empty data yields the empty
result. -/
def process_input_data (st : ProcState) (data : List ℕ) (sens : ℚ) (ix iy : Bool) :
    ProcState × ProcessResult :=
  if data = [] then (st, ⟨0, false, none, [], none⟩)
  else
    let rid := data.getD 0 0
    if rid = 5 then
      let r := processTrackball st.x_history st.y_history data sens ix iy
      (⟨r.1.1, r.1.2⟩, ⟨rid, true, r.2, [], none⟩)
    else if rid = 2 then
      (st, ⟨rid, true, none, processButtonData data, none⟩)
    else if rid = 6 then
      (st, ⟨rid, true, none, [], some (data.take 16)⟩)
    else (st, ⟨rid, false, none, [], none⟩)

/-- Bit of the report that `MicroPanel._parse_hid_report` reads for button
`i` (`0 ≤ i < 32`): bit `i % 8` of `data[1 + i / 8]` (bytes `data[1:5]`). -/
def pressBit (data : List ℕ) (i : ℕ) : Bool :=
  (data.getD (1 + i / 8) 0).testBit (i % 8)

/-- Read of `button_states[i]` (the source always guards the read with
`i < len(button_states)`, so the default is never observed). -/
def getBool (l : List Bool) (i : ℕ) : Bool :=
  l.getD i false

/-- Core loop of the `0x02` branch of `MicroPanel._parse_hid_report`: for each
button index, when the index is in range and the report bit differs from the
stored state, the state entry is overwritten and an event `(id, pressed)` is
emitted. -/
def parseButtonsAux (press : ℕ → Bool) : List ℕ → List Bool → List Bool × List (ℕ × Bool)
  | [], st => (st, [])
  | i :: rest, st =>
    if i < st.length ∧ press i ≠ getBool st i then
      let r := parseButtonsAux press rest (st.set i (press i))
      (r.1, (i, press i) :: r.2)
    else
      parseButtonsAux press rest st

/-- Embedding of the button branch of `MicroPanel._parse_hid_report`
(`src/core/device.py`): reports shorter than 8 bytes or whose ID is not 0x02
produce no events; otherwise button indices 0..31 are diffed against the
stored `button_states`. -/
def parse_hid_report_buttons (states : List Bool) (data : List ℕ) :
    List Bool × List (ℕ × Bool) :=
  if data.length < 8 then (states, [])
  else if data.getD 0 0 = 2 then parseButtonsAux (pressBit data) (List.range 32) states
  else (states, [])

/-- Connection-related state of `DaVinciMicroPanel`. -/
structure PanelState where
  is_connected : Bool
  is_illuminated : Bool
  hasDevice : Bool
deriving DecidableEq

/-- USB side effects performed by the session layer: a HID SET_REPORT control
transfer (all with `bmRequestType 0x21`, `bRequest 0x09`, `wIndex 2`,
recorded by its `wValue` and payload) or an interface release. -/
inductive Action where
  | transfer (wValue : ℕ) (payload : List ℤ)
  | releaseInterface
deriving DecidableEq

/-- Error type for the transport layer (`TransportError` of the spec). -/
inductive TransportError where
  | transportError
deriving DecidableEq

/-- Embedding of `DaVinciMicroPanel.set_illumination` (success path): when
connected with a device, sends the secondary command `[0x0A, 0x01]`
(`wValue 0x030A`) followed by the brightness command (`wValue 0x0303`) whose
payload is `[0x03, b, b]` with `b` the clamped brightness when enabling, and
`[0x03, 0x00, 0x00]` when disabling; updates the illuminated flag and returns
`true`. Otherwise does nothing and returns `false`. -/
def set_illumination (st : PanelState) (enabled : Bool) (brightness : ℤ) :
    PanelState × List Action × Bool :=
  if st.is_connected = true ∧ st.hasDevice = true then
    let payload : List ℤ :=
      if enabled then
        let b := max 0 (min 255 brightness)
        [3, b, b]
      else [3, 0, 0]
    ({ st with is_illuminated := enabled },
     [Action.transfer 0x030a [0x0a, 0x01], Action.transfer 0x0303 payload],
     true)
  else (st, [], false)

/-- Embedding of `DaVinciMicroPanel.cleanup` (success path): when connected,
turn illumination off (default brightness argument 100), release the claimed
interface when a device handle exists, and mark the session disconnected;
otherwise do nothing. -/
def cleanup (st : PanelState) : PanelState × List Action :=
  if st.is_connected = true then
    let r := set_illumination st false 100
    let acts := r.2.1 ++ (if r.1.hasDevice = true then [Action.releaseInterface] else [])
    ({ r.1 with is_connected := false }, acts)
  else (st, [])

/-- Outcome of the underlying USB interrupt read: a timeout, data, or a
non-timeout I/O error. -/
inductive ReadOutcome where
  | timeout
  | ok (data : List ℕ)
  | ioError
deriving DecidableEq

/-- Embedding of `DaVinciMicroPanel.connect` (outcome-parameterised): on
success the session is connected, holds a device and is illuminated (connect
turns illumination on); on failure the state is unchanged and `false` is
returned. -/
def connect_model (st : PanelState) (ok : Bool) : PanelState × Bool :=
  if ok then (⟨true, true, true⟩, true) else (st, false)

/-- Embedding of `DaVinciMicroPanel.reconnect`: immediately `true` when
already connected, otherwise `cleanup` followed by `connect`. -/
def reconnect_model (st : PanelState) (ok : Bool) : PanelState × Bool :=
  if st.is_connected = true then (st, true)
  else
    let c := cleanup st
    connect_model c.1 ok

/-- The `try` block of `DaVinciMicroPanel.read_input` (lines 153-170),
entered with a session believed connected: no device yields `None`; a timeout
is silent and returns `None` with the state unchanged; data is returned only
when some byte is nonzero; any other error is caught, marks the session
disconnected, and returns `None` (the periodic `test_connection` illumination
refresh is time-driven and not modelled). The `Except` layer records whether
an exception escapes to the caller: the source catches everything, so every
branch returns `Except.ok`. -/
def read_input_body (st : PanelState) (o : ReadOutcome) :
    PanelState × Except TransportError (Option (List ℕ)) :=
  if st.hasDevice = false then (st, Except.ok none)
  else
    match o with
    | ReadOutcome.timeout => (st, Except.ok none)
    | ReadOutcome.ok data =>
      if data ≠ [] ∧ data.any (fun b => b ≠ 0) then (st, Except.ok (some data))
      else (st, Except.ok none)
    | ReadOutcome.ioError => ({ st with is_connected := false }, Except.ok none)

/-- Embedding of `DaVinciMicroPanel.read_input`: when not connected, attempt
one `reconnect` (returning `None` on failure); then perform the guarded
read. -/
def read_input (st : PanelState) (reconnectOk : Bool) (o : ReadOutcome) :
    PanelState × Except TransportError (Option (List ℕ)) :=
  if st.is_connected = false then
    let r := reconnect_model st reconnectOk
    if r.2 = false then (r.1, Except.ok none)
    else read_input_body r.1 o
  else read_input_body st o

/-- State of the Blender polling loop (`BlenderController` + the modal timer
operator): the `running` flag and the panel session. -/
structure LoopState where
  running : Bool
  panel : PanelState
deriving DecidableEq

/-- One polling iteration (`BlenderController.process_input` driven by the
modal timer): when running, call `read_input` (which attempts a reconnect if
disconnected) and keep looping; the `running` flag is never cleared by input
processing. The middle component reports whether this iteration attempted a
reconnect. -/
def process_input_step (ls : LoopState) (reconnectOk : Bool) (o : ReadOutcome) :
    LoopState × Bool × Option (List ℕ) :=
  if ls.running = false then (ls, false, none)
  else
    let r := read_input ls.panel reconnectOk o
    let d : Option (List ℕ) := match r.2 with
      | Except.ok d => d
      | Except.error _ => none
    ({ ls with panel := r.1 }, !ls.panel.is_connected, d)

/-- Trace of the polling loop started on a lost (disconnected) session whose
reconnect attempts all fail. -/
def failedLoopIter : ℕ → LoopState
  | 0 => ⟨true, ⟨false, false, false⟩⟩
  | n + 1 => (process_input_step (failedLoopIter n) false ReadOutcome.timeout).1

/-- Iterated smoothing push of a constant sample. -/
def pushN (h : List ℤ) (v : ℤ) : ℕ → List ℤ
  | 0 => h
  | n + 1 => pushSample (pushN h v n) v

end MicroPanel

namespace MicroPanel

/-! Helper lemmas about the smoothing queue, the button-state array and the
trackball decoder. -/

/-- One push never grows the history beyond the capacity 4. -/
lemma pushSample_le (h : List ℤ) (x : ℤ) (hl : h.length ≤ 4) :
    (pushSample h x).length ≤ 4 := by
  simp only [pushSample, history_size, List.length_append, List.length_singleton]
  split_ifs with hc
  · simpa [List.length_tail] using hl
  · simp only [List.length_append, List.length_singleton]
    omega

/-- Length of the history after one push. -/
lemma pushSample_length (h : List ℤ) (x : ℤ) :
    (pushSample h x).length = if 4 < h.length + 1 then h.length else h.length + 1 := by
  simp only [pushSample, history_size, List.length_append, List.length_singleton]
  split_ifs with hc
  · simp [List.length_tail]
  · simp

/-- A push onto a full history drops exactly the oldest entry. -/
lemma pushSample_full (h : List ℤ) (x : ℤ) (h4 : h.length = 4) :
    pushSample h x = h.tail ++ [x] := by
  match h with
  | [] => simp at h4
  | a :: t =>
    simp only [pushSample, history_size, List.cons_append, List.length_cons,
      List.length_append, List.length_singleton, List.tail_cons]
    rw [if_pos (by simp at h4 ⊢; omega)]

/-- Four pushes of the same value fill the whole capacity-4 history with it. -/
lemma pushN_fill (h : List ℤ) (v : ℤ) (hl : h.length ≤ 4) :
    pushN h v 4 = [v, v, v, v] := by
  match h with
  | [] => rfl
  | [a] => rfl
  | [a, b] => rfl
  | [a, b, c] => rfl
  | [a, b, c, d] => rfl
  | a :: b :: c :: d :: e :: t => simp at hl

/-- At least four pushes of the same value fill the history with it. -/
lemma pushN_ge (h : List ℤ) (v : ℤ) (n : ℕ) (hn : 4 ≤ n) (hl : h.length ≤ 4) :
    pushN h v n = [v, v, v, v] := by
  induction n, hn using Nat.le_induction with
  | base => exact pushN_fill h v hl
  | succ m hm ih => rw [pushN, ih]; rfl

/-- The weighted average of a constant full history is that constant. -/
lemma weighted_average_const (v : ℤ) : weighted_average [v, v, v, v] = (v : ℚ) := by
  norm_num [weighted_average, List.range_succ, List.cons_ne_nil]
  ring

/-- Reading the state array written by `List.set` at the written index. -/
lemma getBool_set_self (l : List Bool) (i : ℕ) (b : Bool) (h : i < l.length) :
    getBool (l.set i b) i = b := by
  induction l generalizing i with
  | nil => simp at h
  | cons a t ih =>
    cases i with
    | zero => rfl
    | succ n =>
      rw [List.set_cons_succ]
      exact ih n (by simpa using h)

/-- Reading the state array written by `List.set` away from the written
index. -/
lemma getBool_set_ne (l : List Bool) (b : Bool) {i j : ℕ} (hij : i ≠ j) :
    getBool (l.set i b) j = getBool l j := by
  induction l generalizing i j with
  | nil => rfl
  | cons a t ih =>
    cases i with
    | zero =>
      cases j with
      | zero => exact absurd rfl hij
      | succ m => rfl
    | succ n =>
      cases j with
      | zero => rfl
      | succ m =>
        rw [List.set_cons_succ]
        exact ih (fun hnm => hij (by omega))

/-- The button-diff loop never changes the length of the state array. -/
lemma parseButtonsAux_length (press : ℕ → Bool) (ids : List ℕ) (st : List Bool) :
    (parseButtonsAux press ids st).1.length = st.length := by
  induction ids generalizing st with
  | nil => rfl
  | cons i rest ih =>
    simp only [parseButtonsAux]
    split_ifs with hc
    · simpa using ih (st.set i (press i))
    · exact ih st

/-- After the button-diff loop, every in-range processed index holds the
report's bit and every other index is untouched. -/
lemma parseButtonsAux_getBool (press : ℕ → Bool) (ids : List ℕ) (st : List Bool) (j : ℕ) :
    getBool (parseButtonsAux press ids st).1 j =
      if j ∈ ids ∧ j < st.length then press j else getBool st j := by
  induction ids generalizing st with
  | nil => simp [parseButtonsAux]
  | cons i rest ih =>
    simp only [parseButtonsAux]
    by_cases hc : i < st.length ∧ press i ≠ getBool st i
    · rw [if_pos hc]
      dsimp only
      rw [ih (st.set i (press i)), List.length_set]
      by_cases hji : j = i
      · subst hji
        have hjl : j < st.length := hc.1
        by_cases hjr : j ∈ rest
        · simp [hjr, hjl]
        · simp [hjr, hjl, getBool_set_self st j (press j) hjl]
      · rw [getBool_set_ne st (press i) (fun hij => hji hij.symm)]
        simp [List.mem_cons, hji]
    · rw [if_neg hc]
      rw [ih st]
      by_cases hji : j = i
      · subst hji
        by_cases hjl : j < st.length
        · have hpe : press j = getBool st j := by
            by_contra hne
            exact hc ⟨hjl, hne⟩
          by_cases hjr : j ∈ rest
          · simp [hjr, hjl, hpe]
          · simp [hjr, hjl, hpe]
        · simp [List.mem_cons, hjl]
      · simp [List.mem_cons, hji]

/-- The button-diff loop emits nothing when the stored state already agrees
with the report on every in-range processed index. -/
lemma parseButtonsAux_stable (press : ℕ → Bool) (ids : List ℕ) (st : List Bool)
    (h : ∀ i ∈ ids, i < st.length → getBool st i = press i) :
    parseButtonsAux press ids st = (st, []) := by
  induction ids with
  | nil => rfl
  | cons i rest ih =>
    simp only [parseButtonsAux]
    rw [if_neg]
    · exact ih (fun k hk hkl => h k (List.mem_cons_of_mem i hk) hkl)
    · rintro ⟨hlt, hne⟩
      exact hne (h i (List.mem_cons_self i rest) hlt).symm

/-- The histories returned by the trackball decoder are exactly one push of
the report's X and Y movements. -/
lemma processTrackball_fst (xh yh : List ℤ) (data : List ℕ) (sens : ℚ) (ix iy : Bool) :
    (processTrackball xh yh data sens ix iy).1 =
      (pushSample xh (xMovement data), pushSample yh (yMovement data)) := by
  simp only [processTrackball]
  split_ifs <;> rfl

/-- The event returned by the trackball decoder, written out by groups. -/
lemma processTrackball_snd (xh yh : List ℤ) (data : List ℕ) (sens : ℚ) (ix iy : Bool) :
    (processTrackball xh yh data sens ix iy).2 =
      if (movement_threshold < |left_x_delta xh data sens ix| ∨
          movement_threshold < |left_y_delta yh data sens iy|) ∨
         (movement_threshold < |center_x_delta data sens ix| ∨
          movement_threshold < |center_y_delta data sens iy|) ∨
         movement_threshold < |wheel_delta data sens| then
        some { left := if movement_threshold < |left_x_delta xh data sens ix| ∨
                 movement_threshold < |left_y_delta yh data sens iy| then
                 some (left_x_delta xh data sens ix, left_y_delta yh data sens iy) else none,
               center := if movement_threshold < |center_x_delta data sens ix| ∨
                 movement_threshold < |center_y_delta data sens iy| then
                 some (center_x_delta data sens ix, center_y_delta data sens iy) else none,
               wheel := if movement_threshold < |wheel_delta data sens| then
                 some (wheel_delta data sens) else none }
      else none := by
  simp only [processTrackball]
  split_ifs <;> rfl

end MicroPanel

namespace MicroPanel

/-! Claim theorems. -/

/-- C1 (counterexample): the button decoder of `InputProcessor`
(`_process_button_data`) is level-triggered, not edge-triggered: processing
the report `[0x02, 0x01, 0, 0, 0, 0, 0, 0]` twice in a row emits button 8
both times, although the claim says events are emitted only on bit
transitions (so only the first time). -/
theorem claim_C1_counterexample :
    (process_input_data ⟨[], []⟩ [2, 1, 0, 0, 0, 0, 0, 0] 1 false false).2.buttons = [8] ∧
    (process_input_data (process_input_data ⟨[], []⟩ [2, 1, 0, 0, 0, 0, 0, 0] 1 false false).1
        [2, 1, 0, 0, 0, 0, 0, 0] 1 false false).2.buttons = [8] ∧
    (process_input_data (process_input_data ⟨[], []⟩ [2, 1, 0, 0, 0, 0, 0, 0] 1 false false).1
        [2, 1, 0, 0, 0, 0, 0, 0] 1 false false).2.buttons ≠ [] := by
  refine ⟨by decide, by decide, by decide⟩

/-- C1 (amended): only `MicroPanel._parse_hid_report` is edge-triggered —
re-parsing the same button report from the state produced by a first parse
emits no events; the addon decoder `InputProcessor._process_button_data` is
level-triggered: button processing neither reads nor writes processor state,
so processing the same `0x02` report twice emits exactly the same (possibly
nonempty) button events both times. -/
theorem claim_C1_amended :
    (∀ (states : List Bool) (data : List ℕ),
      (parse_hid_report_buttons (parse_hid_report_buttons states data).1 data).2 = []) ∧
    (∀ (st : ProcState) (data : List ℕ) (sens : ℚ) (ix iy : Bool),
      data ≠ [] → data.getD 0 0 = 2 →
        (process_input_data st data sens ix iy).1 = st ∧
        (process_input_data (process_input_data st data sens ix iy).1 data sens ix iy).2 =
          (process_input_data st data sens ix iy).2) := by
  constructor
  · intro states data
    unfold parse_hid_report_buttons
    split_ifs with h8 h2
    · rfl
    · rw [parseButtonsAux_stable]
      intro i hi hlen
      rw [parseButtonsAux_length] at hlen
      rw [parseButtonsAux_getBool]
      simp [hi, hlen]
    · rfl
  · intro st data sens ix iy hne hid
    have hid2 : data[0]?.getD 0 = 2 := by
      rw [← List.getD_eq_getElem?_getD]
      exact hid
    have h1 : (process_input_data st data sens ix iy).1 = st := by
      simp [process_input_data, hne, hid2]
    exact ⟨h1, by rw [h1]⟩

/-- C1 (witness): the amended theorem applied to a concrete state and the
report `[0x02, 0x01, 0, 0, 0, 0, 0, 0]`. -/
theorem claim_C1_witness :
    (parse_hid_report_buttons
        (parse_hid_report_buttons (List.replicate 52 false) [2, 1, 0, 0, 0, 0, 0, 0]).1
        [2, 1, 0, 0, 0, 0, 0, 0]).2 = [] ∧
    (process_input_data ⟨[], []⟩ [2, 1, 0, 0, 0, 0, 0, 0] 1 false false).1 = ⟨[], []⟩ :=
  ⟨claim_C1_amended.1 (List.replicate 52 false) [2, 1, 0, 0, 0, 0, 0, 0],
   (claim_C1_amended.2 ⟨[], []⟩ [2, 1, 0, 0, 0, 0, 0, 0] 1 false false
     (by decide) (by decide)).1⟩

/-- C2 (counterexample): at a magnitude tie the offset-6 value is used, not
the offset-2 value: for the report `[0x05, 0, 0x05, 0, 0, 0, 0xFB, 0]` the
two candidates are `5` (offset 2) and `-5` (offset 6) with equal magnitude,
and the decoder picks `-5`. -/
theorem claim_C2_counterexample :
    xMovement [5, 0, 5, 0, 0, 0, 251, 0] = signed_byte 251 ∧
    signed_byte 251 = -5 ∧ signed_byte 5 = 5 ∧
    |signed_byte 5| = |signed_byte 251| ∧
    xMovement [5, 0, 5, 0, 0, 0, 251, 0] ≠ signed_byte 5 := by
  refine ⟨by decide, by decide, by decide, by decide, by decide⟩

/-- C2 (amended): the raw X movement is the offset-2 byte when its magnitude
strictly exceeds the offset-6 magnitude; when the offset-2 magnitude is at
most the offset-6 magnitude it is the offset-6 byte if that is nonzero and 0
otherwise — so a tie between nonzero magnitudes is resolved in favour of
offset 6, not offset 2. -/
theorem claim_C2_amended (data : List ℕ) :
    (|signed_byte (data.getD 6 0)| < |signed_byte (data.getD 2 0)| →
      xMovement data = signed_byte (data.getD 2 0)) ∧
    (|signed_byte (data.getD 2 0)| ≤ |signed_byte (data.getD 6 0)| →
      signed_byte (data.getD 6 0) ≠ 0 →
      xMovement data = signed_byte (data.getD 6 0)) ∧
    (|signed_byte (data.getD 2 0)| ≤ |signed_byte (data.getD 6 0)| →
      signed_byte (data.getD 6 0) = 0 →
      xMovement data = 0) := by
  have e1 : xMovement data =
      if |signed_byte (data.getD 6 0)| < |signed_byte (data.getD 2 0)| then
        signed_byte (data.getD 2 0)
      else if 0 < |signed_byte (data.getD 6 0)| then signed_byte (data.getD 6 0)
      else 0 := rfl
  refine ⟨fun h => ?_, fun hle hne => ?_, fun hle he => ?_⟩
  · rw [e1, if_pos h]
  · rw [e1, if_neg (not_lt.2 hle), if_pos (abs_pos.2 hne)]
  · rw [e1, if_neg (not_lt.2 hle), if_neg (by rw [he]; simp)]

/-- C2 (witness): the amended theorem applied at the tie report, where the
offset-6 value wins. -/
theorem claim_C2_witness :
    xMovement [5, 0, 5, 0, 0, 0, 251, 0] = signed_byte 251 :=
  (claim_C2_amended [5, 0, 5, 0, 0, 0, 251, 0]).2.1 (by decide) (by decide)

/-- C3 (counterexample): for the report `[0x05, 0, 0x01, 0, 0, 0, 0, 0]`
processed from fresh histories with sensitivity 1, the left X delta is 1/4
(above threshold) while the left Y delta is 0 (at or below threshold), yet
the emitted event includes the Y axis with value 0 instead of omitting it —
so it is not the case that an axis appears only when its own magnitude
exceeds 0.05. -/
theorem claim_C3_counterexample :
    (processTrackball [] [] [5, 0, 1, 0, 0, 0, 0, 0] 1 false false).2 =
      some { left := some (1 / 4, 0), center := none, wheel := none } ∧
    ¬ movement_threshold < |(0 : ℚ)| := by
  constructor
  · norm_num [processTrackball, left_x_delta, left_y_delta, center_x_delta, center_y_delta,
      wheel_delta, smooth_x, smooth_y, applyInvSens, xMovement, yMovement, signed_byte,
      pushSample, history_size, weighted_average, movement_threshold, List.range_succ, lt_abs]
  · norm_num [movement_threshold]

/-- C3 (amended): thresholding is per axis group, with a strict comparison
against 0.05: the wheel axis appears iff its own magnitude strictly exceeds
the threshold, while the left pair appears iff the left X or left Y
magnitude strictly exceeds the threshold (and then both axes of the pair are
included, even a sub-threshold one), and likewise for the center pair; when
every axis is at or below the threshold no event is emitted at all. -/
theorem claim_C3_amended (xh yh : List ℤ) (data : List ℕ) (sens : ℚ) (ix iy : Bool) :
    ((processTrackball xh yh data sens ix iy).2.bind (fun e => e.wheel) =
        some (wheel_delta data sens) ↔
      movement_threshold < |wheel_delta data sens|) ∧
    ((processTrackball xh yh data sens ix iy).2.bind (fun e => e.left) =
        some (left_x_delta xh data sens ix, left_y_delta yh data sens iy) ↔
      (movement_threshold < |left_x_delta xh data sens ix| ∨
       movement_threshold < |left_y_delta yh data sens iy|)) ∧
    ((processTrackball xh yh data sens ix iy).2.bind (fun e => e.center) =
        some (center_x_delta data sens ix, center_y_delta data sens iy) ↔
      (movement_threshold < |center_x_delta data sens ix| ∨
       movement_threshold < |center_y_delta data sens iy|)) ∧
    (¬ movement_threshold < |left_x_delta xh data sens ix| →
     ¬ movement_threshold < |left_y_delta yh data sens iy| →
     ¬ movement_threshold < |center_x_delta data sens ix| →
     ¬ movement_threshold < |center_y_delta data sens iy| →
     ¬ movement_threshold < |wheel_delta data sens| →
      (processTrackball xh yh data sens ix iy).2 = none) := by
  refine ⟨?_, ?_, ?_, ?_⟩
  · rw [processTrackball_snd]
    by_cases hW : movement_threshold < |wheel_delta data sens|
    · rw [if_pos (Or.inr (Or.inr hW))]
      simp [hW]
    · by_cases hO : (movement_threshold < |left_x_delta xh data sens ix| ∨
          movement_threshold < |left_y_delta yh data sens iy|) ∨
          (movement_threshold < |center_x_delta data sens ix| ∨
           movement_threshold < |center_y_delta data sens iy|) ∨
          movement_threshold < |wheel_delta data sens|
      · rw [if_pos hO]
        simp [hW]
      · rw [if_neg hO]
        simp [hW]
  · rw [processTrackball_snd]
    by_cases hL : movement_threshold < |left_x_delta xh data sens ix| ∨
        movement_threshold < |left_y_delta yh data sens iy|
    · rw [if_pos (Or.inl hL)]
      simp [hL]
    · by_cases hO : (movement_threshold < |left_x_delta xh data sens ix| ∨
          movement_threshold < |left_y_delta yh data sens iy|) ∨
          (movement_threshold < |center_x_delta data sens ix| ∨
           movement_threshold < |center_y_delta data sens iy|) ∨
          movement_threshold < |wheel_delta data sens|
      · rw [if_pos hO]
        simp [hL]
      · rw [if_neg hO]
        simp [hL]
  · rw [processTrackball_snd]
    by_cases hC : movement_threshold < |center_x_delta data sens ix| ∨
        movement_threshold < |center_y_delta data sens iy|
    · rw [if_pos (Or.inr (Or.inl hC))]
      simp [hC]
    · by_cases hO : (movement_threshold < |left_x_delta xh data sens ix| ∨
          movement_threshold < |left_y_delta yh data sens iy|) ∨
          (movement_threshold < |center_x_delta data sens ix| ∨
           movement_threshold < |center_y_delta data sens iy|) ∨
          movement_threshold < |wheel_delta data sens|
      · rw [if_pos hO]
        simp [hC]
      · rw [if_neg hO]
        simp [hC]
  · intro h1 h2 h3 h4 h5
    rw [processTrackball_snd, if_neg (by tauto)]

/-- C3 (witness): the amended theorem at the counterexample report — the
left group is present because left X exceeds the threshold. -/
theorem claim_C3_witness :
    (processTrackball [] [] [5, 0, 1, 0, 0, 0, 0, 0] 1 false false).2.bind (fun e => e.left) =
      some (left_x_delta [] [5, 0, 1, 0, 0, 0, 0, 0] 1 false,
            left_y_delta [] [5, 0, 1, 0, 0, 0, 0, 0] 1 false) :=
  (claim_C3_amended [] [] [5, 0, 1, 0, 0, 0, 0, 0] 1 false false).2.1.mpr
    (Or.inl (by norm_num [left_x_delta, smooth_x, applyInvSens, xMovement, signed_byte,
      pushSample, history_size, weighted_average, movement_threshold, List.range_succ, lt_abs]))

end MicroPanel

namespace MicroPanel

/-- C4 (counterexample): after 3 consecutive failed reconnect attempts the
polling loop has not terminated — its `running` flag is still set and the
next iteration attempts reconnection yet again (there is no attempt counter
and no `DeviceLost` condition anywhere in the polling path). -/
theorem claim_C4_counterexample :
    failedLoopIter 3 = ⟨true, ⟨false, false, false⟩⟩ ∧
    (process_input_step (failedLoopIter 3) false ReadOutcome.timeout).2.1 = true := by
  refine ⟨by decide, by decide⟩

/-- C4 (amended): the polling loop never terminates on reconnect failure:
started on a lost session whose reconnect attempts all fail, after any number
of iterations the loop is still running with the panel disconnected, and
every following iteration attempts reconnection again — reconnection is
retried indefinitely, with no attempt bound and no fatal report to the
caller. -/
theorem claim_C4_amended (n : ℕ) :
    failedLoopIter n = ⟨true, ⟨false, false, false⟩⟩ ∧
    (process_input_step (failedLoopIter n) false ReadOutcome.timeout).2.1 = true := by
  induction n with
  | zero => exact ⟨rfl, rfl⟩
  | succ m ih => exact ⟨by rw [failedLoopIter, ih.1]; rfl, by rw [failedLoopIter, ih.1]; rfl⟩

/-- C5 (counterexample): a non-timeout I/O error during a read on a connected
session marks the session disconnected but does NOT propagate a
`TransportError`: the read returns normally (`Except.ok none`), because the
source catches every exception. -/
theorem claim_C5_counterexample :
    read_input ⟨true, true, true⟩ true ReadOutcome.ioError =
      (⟨false, true, true⟩, Except.ok none) := rfl

/-- C5 (amended): on a connected session with a device, a USB timeout returns
no data without being treated as an error and without changing any state,
while any other I/O failure marks the session disconnected and also returns
no data — the error is swallowed rather than propagated to the caller. -/
theorem claim_C5_amended (st : PanelState) (rok : Bool)
    (hc : st.is_connected = true) (hd : st.hasDevice = true) :
    read_input st rok ReadOutcome.timeout = (st, Except.ok none) ∧
    (read_input st rok ReadOutcome.ioError).1 = { st with is_connected := false } ∧
    (read_input st rok ReadOutcome.ioError).2 = Except.ok none := by
  simp [read_input, read_input_body, hc, hd]

/-- C5 (witness): the amended theorem at a concrete connected session. -/
theorem claim_C5_witness :
    read_input ⟨true, false, true⟩ false ReadOutcome.timeout =
      (⟨true, false, true⟩, Except.ok none) ∧
    (read_input ⟨true, false, true⟩ false ReadOutcome.ioError).1 =
      { PanelState.mk true false true with is_connected := false } :=
  ⟨(claim_C5_amended ⟨true, false, true⟩ false rfl rfl).1,
   (claim_C5_amended ⟨true, false, true⟩ false rfl rfl).2.1⟩

/-- C6 (confirmed): along any sequence of pushed samples the per-axis
smoothing history never exceeds the capacity 4, and a push onto a full
history evicts exactly the oldest entry, keeping the 4 most recent samples in
arrival order. -/
theorem claim_C6_history_bounded (h : List ℤ) (samples : List ℤ) (hl : h.length ≤ 4) :
    (samples.foldl pushSample h).length ≤ 4 ∧
    (∀ x : ℤ, h.length = 4 → pushSample h x = h.tail ++ [x]) := by
  constructor
  · induction samples generalizing h with
    | nil => exact hl
    | cons s rest ih => exact ih (pushSample h s) (pushSample_le h s hl)
  · exact fun x h4 => pushSample_full h x h4

/-- C6 (witness): the bound and the eviction equation at concrete
histories. -/
theorem claim_C6_witness :
    (([5, 6] : List ℤ).foldl pushSample [1, 2, 3, 4]).length ≤ 4 ∧
    pushSample ([1, 2, 3, 4] : List ℤ) 9 = ([1, 2, 3, 4] : List ℤ).tail ++ [9] :=
  ⟨(claim_C6_history_bounded [1, 2, 3, 4] [5, 6] (by decide)).1,
   (claim_C6_history_bounded [1, 2, 3, 4] [5, 6] (by decide)).2 9 (by decide)⟩

/-- C7 (confirmed): pushing the same value at least 4 consecutive times into
a history that respects the capacity bound fills the capacity-4 history with
that value, and the weighted average (weights 1..N oldest-to-newest, divided
by their sum) is then exactly that value. -/
theorem claim_C7_constant_convergence (h : List ℤ) (v : ℤ) (n : ℕ)
    (hl : h.length ≤ 4) (hn : 4 ≤ n) :
    pushN h v n = [v, v, v, v] ∧
    weighted_average (pushN h v n) = (v : ℚ) := by
  have hfill := pushN_ge h v n hn hl
  exact ⟨hfill, by rw [hfill]; exact weighted_average_const v⟩

/-- C7 (witness): pushing 7 five times from a partially filled history yields
the constant history and weighted average exactly 7. -/
theorem claim_C7_witness :
    pushN [3, 1] 7 5 = [7, 7, 7, 7] ∧
    weighted_average (pushN [3, 1] 7 5) = (7 : ℚ) :=
  ⟨(claim_C7_constant_convergence [3, 1] 7 5 (by decide) (by decide)).1,
   (claim_C7_constant_convergence [3, 1] 7 5 (by decide) (by decide)).2⟩

/-- C8 (confirmed): on a connected session with a device,
`set_illumination` with `enabled = false` sends exactly the secondary command
`[0x0A, 0x01]` followed by the brightness command with payload
`[0x03, 0x00, 0x00]`, for every brightness argument and every prior
illumination state. -/
theorem claim_C8_illumination_off (st : PanelState) (b : ℤ)
    (hc : st.is_connected = true) (hd : st.hasDevice = true) :
    (set_illumination st false b).2.1 =
      [Action.transfer 0x030a [0x0a, 0x01], Action.transfer 0x0303 [3, 0, 0]] := by
  simp [set_illumination, hc, hd]

/-- C8 (witness): turning illumination off on an illuminated session with
brightness argument 200 still sends payload `[0x03, 0x00, 0x00]`. -/
theorem claim_C8_witness :
    (set_illumination ⟨true, true, true⟩ false 200).2.1 =
      [Action.transfer 0x030a [0x0a, 0x01], Action.transfer 0x0303 [3, 0, 0]] :=
  claim_C8_illumination_off ⟨true, true, true⟩ 200 rfl rfl

/-- C9 (confirmed): `cleanup` on a connected session with a device turns
illumination off (payload `[0x03, 0x00, 0x00]`), releases the interface,
and marks the session disconnected; calling `cleanup` again immediately
afterwards performs no transfer and no release and leaves the state
unchanged. -/
theorem claim_C9_cleanup_idempotent (st : PanelState)
    (hc : st.is_connected = true) (hd : st.hasDevice = true) :
    (cleanup st).1.is_connected = false ∧
    (cleanup st).1.is_illuminated = false ∧
    (cleanup st).2 = [Action.transfer 0x030a [0x0a, 0x01], Action.transfer 0x0303 [3, 0, 0],
      Action.releaseInterface] ∧
    cleanup (cleanup st).1 = ((cleanup st).1, []) := by
  simp [cleanup, set_illumination, hc, hd]

/-- C9 (witness): cleanup followed by a second cleanup at a concrete
connected, illuminated session. -/
theorem claim_C9_witness :
    (cleanup ⟨true, true, true⟩).1.is_connected = false ∧
    cleanup (cleanup ⟨true, true, true⟩).1 = ((cleanup ⟨true, true, true⟩).1, []) :=
  ⟨(claim_C9_cleanup_idempotent ⟨true, true, true⟩ rfl rfl).1,
   (claim_C9_cleanup_idempotent ⟨true, true, true⟩ rfl rfl).2.2.2⟩

/-- C10 (confirmed): processing any `0x05` report appends exactly one sample
(the decoded X and Y movements, possibly 0) to each smoothing history —
whether or not an event is emitted — so histories of equal length stay of
equal length. -/
theorem claim_C10_trackball_state (st : ProcState) (data : List ℕ) (sens : ℚ) (ix iy : Bool)
    (hne : data ≠ []) (hid : data.getD 0 0 = 5) :
    (process_input_data st data sens ix iy).1.x_history =
      pushSample st.x_history (xMovement data) ∧
    (process_input_data st data sens ix iy).1.y_history =
      pushSample st.y_history (yMovement data) ∧
    (st.x_history.length = st.y_history.length →
      (process_input_data st data sens ix iy).1.x_history.length =
        (process_input_data st data sens ix iy).1.y_history.length) := by
  have hid2 : data[0]?.getD 0 = 5 := by
    rw [← List.getD_eq_getElem?_getD]
    exact hid
  have hx : (process_input_data st data sens ix iy).1.x_history =
      pushSample st.x_history (xMovement data) := by
    simp [process_input_data, hne, hid2, processTrackball_fst]
  have hy : (process_input_data st data sens ix iy).1.y_history =
      pushSample st.y_history (yMovement data) := by
    simp [process_input_data, hne, hid2, processTrackball_fst]
  refine ⟨hx, hy, fun he => ?_⟩
  rw [hx, hy, pushSample_length, pushSample_length, he]

/-- C10 (witness): a zero-movement `0x05` report still pushes a 0 sample into
each history. -/
theorem claim_C10_witness :
    (process_input_data ⟨[], []⟩ [5, 0, 0, 0, 0, 0, 0, 0] 1 false false).1.x_history =
      pushSample [] (xMovement [5, 0, 0, 0, 0, 0, 0, 0]) ∧
    (process_input_data ⟨[], []⟩ [5, 0, 0, 0, 0, 0, 0, 0] 1 false false).1.x_history.length =
      (process_input_data ⟨[], []⟩ [5, 0, 0, 0, 0, 0, 0, 0] 1 false false).1.y_history.length :=
  ⟨(claim_C10_trackball_state ⟨[], []⟩ [5, 0, 0, 0, 0, 0, 0, 0] 1 false false
      (by decide) (by decide)).1,
   (claim_C10_trackball_state ⟨[], []⟩ [5, 0, 0, 0, 0, 0, 0, 0] 1 false false
      (by decide) (by decide)).2.2 rfl⟩

end MicroPanel
